import Mathlib

/-!
Verification of the admission-and-dispatch core of the PrivHub LLM relay
gateway: the subscription quota ledger, the quota admission controller,
channel selection with temporary-disable skipping, the temporary disable
registry, and the moderation gate.

Pure Go functions are embedded as Lean functions over `Int` (Go `int64`;
no arithmetic here approaches the 64-bit boundary) and `String`/`List Char`
for Go strings.  Stateful code (database transactions, the in-memory
disable registry, HTTP calls) is embedded as explicit state passing with
oracle parameters for the external collaborators (the channel satisfier,
the moderation provider, the transactional store).
-/

namespace PrivHub

/-! ## Subscription quota ledger: data model (model/subscription_quota.go) -/

/-- Embeds `SubscriptionLimit`: one rolling window (`5h_limit` / `7d_limit`). -/
structure SubscriptionLimit where
  Total : Int
  Available : Int
  ResetAt : Int
  deriving Repr, DecidableEq, Inhabited

/-- Embeds `SubscriptionDuration`: the entitlement validity window. -/
structure SubscriptionDuration where
  StartAt : Int
  EndAt : Int
  AutoRenewEnabled : Bool
  deriving Repr, DecidableEq, Inhabited

/-- Embeds `SubscriptionItem`: one time-windowed entitlement. -/
structure SubscriptionItem where
  PlanName : String
  PlanID : String
  SubscriptionID : String
  Limit5H : SubscriptionLimit
  Limit7D : SubscriptionLimit
  Duration : SubscriptionDuration
  Owner : Int
  Status : String
  deriving Repr, DecidableEq, Inhabited

/-- Embeds `nowInSameUnit`: timestamps above `1e12` are treated as milliseconds,
so `now` (seconds) is scaled before comparison. -/
def nowInSameUnit (referenceTimestamp : Int) (nowSec : Int) : Int :=
  if referenceTimestamp > 1000000000000 then nowSec * 1000 else nowSec

/-- Embeds `durationContains`: both bounds must be non-zero and `now`
(converted per bound) must lie inside `[StartAt, EndAt]`. -/
def durationContains (duration : SubscriptionDuration) (nowSec : Int) : Bool :=
  if duration.StartAt = 0 ∨ duration.EndAt = 0 then false
  else if nowInSameUnit duration.StartAt nowSec < duration.StartAt then false
  else if nowInSameUnit duration.EndAt nowSec > duration.EndAt then false
  else true

/-- Embeds `isUsableSubscriptionItem`: deployed, positive availability in both
windows, enough availability for `amount` when `amount > 0`, and `now`
inside the duration. -/
def isUsableSubscriptionItem (item : SubscriptionItem) (nowSec : Int) (amount : Int) : Bool :=
  if item.Status ≠ "deployed" then false
  else if item.Limit5H.Available ≤ 0 ∨ item.Limit7D.Available ≤ 0 then false
  else if amount > 0 ∧ (item.Limit5H.Available < amount ∨ item.Limit7D.Available < amount) then false
  else if ¬ durationContains item.Duration nowSec then false
  else true

/-- Embeds `advanceResetAt`: advance `resetAt` past `now` by whole interval
steps (interval scaled to milliseconds when `resetAt` is in
milliseconds); a non-positive `resetAt` restarts at `now + interval`.
Go's `/` on `int64` truncates toward zero, hence `Int.tdiv`. -/
def advanceResetAt (resetAt : Int) (nowSec : Int) (intervalSec : Int) : Int :=
  if intervalSec ≤ 0 then resetAt
  else
    let now := nowInSameUnit resetAt nowSec
    let interval := if resetAt > 1000000000000 then intervalSec * 1000 else intervalSec
    if resetAt ≤ 0 then now + interval
    else if now ≤ resetAt then resetAt
    else resetAt + ((now - resetAt).tdiv interval + 1) * interval

/-- One window of the reset step of `resetAndPruneSubscriptionData`:
restore `Available = Total` and advance `ResetAt` when `now` (converted)
has passed `ResetAt`; the `Bool` is the per-window `changed` flag. -/
def resetSubscriptionWindow (lim : SubscriptionLimit) (nowSec : Int) (intervalSec : Int) :
    SubscriptionLimit × Bool :=
  let nowU := nowInSameUnit lim.ResetAt nowSec
  if nowU > lim.ResetAt then
    let c1 : Bool := lim.Available ≠ lim.Total
    let newResetAt := advanceResetAt lim.ResetAt nowSec intervalSec
    let c2 : Bool := newResetAt ≠ lim.ResetAt
    ({ lim with Available := lim.Total, ResetAt := newResetAt }, c1 || c2)
  else (lim, false)

/-- The per-item body of the `resetAndPruneSubscriptionData` loop for a
deployed item: reset both windows (5h interval 18000 s, 7d interval
604800 s). -/
def resetSubscriptionItemWindows (item : SubscriptionItem) (nowSec : Int) :
    SubscriptionItem × Bool :=
  let r5 := resetSubscriptionWindow item.Limit5H nowSec (5 * 60 * 60)
  let r7 := resetSubscriptionWindow item.Limit7D nowSec (7 * 24 * 60 * 60)
  ({ item with Limit5H := r5.1, Limit7D := r7.1 }, r5.2 || r7.2)

/-- The loop of `resetAndPruneSubscriptionData`: drop non-deployed
items, reset the windows of the survivors. -/
def resetAndPruneLoop (items : List SubscriptionItem) (nowSec : Int) :
    List SubscriptionItem × Bool :=
  match items with
  | [] => ([], false)
  | item :: rest =>
    let r := resetAndPruneLoop rest nowSec
    if item.Status ≠ "deployed" then (r.1, true)
    else
      let ri := resetSubscriptionItemWindows item nowSec
      (ri.1 :: r.1, ri.2 || r.2)

/-- Embeds `resetAndPruneSubscriptionData`: the loop plus the final
`changed || len(pruned) != len(items)` flag. -/
def resetAndPruneSubscriptionData (items : List SubscriptionItem) (nowSec : Int) :
    List SubscriptionItem × Bool :=
  if items = [] then (items, false)
  else
    let r := resetAndPruneLoop items nowSec
    (r.1, r.2 || decide (r.1.length ≠ items.length))

/-! ## Decimal printing and parsing (Go `fmt.Sprintf("%d", ·)` and
`strconv.Atoi`) -/

/-- Fuel-bounded little-endian base-10 digits (kernel-computable; the
fuel is consumed one unit per extracted digit). -/
def natDigitsAux : Nat → Nat → List Nat
  | 0, _ => []
  | fuel + 1, n => if n = 0 then [] else n % 10 :: natDigitsAux fuel (n / 10)

/-- Little-endian base-10 digits of a natural number. -/
def natDigitsLE (n : Nat) : List Nat :=
  natDigitsAux n n

/-- Decimal digit characters of a natural number, most significant
first, as produced by Go's `%d` verb. -/
def natToDecimalChars (n : Nat) : List Char :=
  if n = 0 then ['0'] else ((natDigitsLE n).map Nat.digitChar).reverse

/-- Decimal rendering of a natural number. -/
def natToDecimal (n : Nat) : String :=
  String.mk (natToDecimalChars n)

/-- Decimal rendering of an `int64` (Go `%d`). -/
def intToDecimal (i : Int) : String :=
  if i < 0 then "-" ++ natToDecimal (-i).toNat else natToDecimal i.toNat

/-- Numeric value of a decimal digit character. -/
def charToDigit (c : Char) : Nat :=
  c.toNat - '0'.toNat

/-- Value of a most-significant-first decimal digit string. -/
def parseDecimalDigits (cs : List Char) : Nat :=
  cs.foldl (fun acc c => acc * 10 + charToDigit c) 0

/-- The digits-plus-range part of `strconv.Atoi`: a non-empty all-digit
string whose (possibly negated) value fits in `int64`. -/
def goAtoiDigits (neg : Bool) (digits : List Char) : Option Int :=
  if digits = [] then none
  else if digits.all Char.isDigit then
    let v : Int := if neg then -(parseDecimalDigits digits : Int) else (parseDecimalDigits digits : Int)
    if v < -(2 ^ 63) ∨ v > 2 ^ 63 - 1 then none else some v
  else none

/-- Embeds `strconv.Atoi` on a 64-bit platform: optional sign, decimal digits,
`int64` range check. -/
def goAtoi (cs : List Char) : Option Int :=
  match cs with
  | [] => none
  | c :: rest =>
    if c = '-' then goAtoiDigits true rest
    else if c = '+' then goAtoiDigits false rest
    else goAtoiDigits false (c :: rest)

/-- Go's `strings.Split` for a one-character separator. -/
def splitOnChar (sep : Char) : List Char → List (List Char)
  | [] => [[]]
  | c :: cs =>
    match splitOnChar sep cs with
    | [] => if c = sep then [[], []] else [[c]]
    | h :: t => if c = sep then [] :: h :: t else (c :: h) :: t

/-! ## Selection fingerprints and tokens (model/subscription_quota.go)

`common.Sha1` is not part of the sources under verification, so every
definition that hashes is parameterised by an arbitrary
`hash : String → String`; the theorems hold for every such function and
the witnesses instantiate it concretely. -/

/-- The stable pre-hash string of `subscriptionItemFingerprint`:
`fmt.Sprintf("plan_name=%s|plan_id=%s|subscription_id=%s|owner=%d|start=%d|end=%d", …)`. -/
def subscriptionItemStableKey (item : SubscriptionItem) : String :=
  "plan_name=" ++ item.PlanName ++ "|plan_id=" ++ item.PlanID ++
    "|subscription_id=" ++ item.SubscriptionID ++ "|owner=" ++ intToDecimal item.Owner ++
    "|start=" ++ intToDecimal item.Duration.StartAt ++ "|end=" ++ intToDecimal item.Duration.EndAt

/-- Embeds `subscriptionItemFingerprint`: hash of the stable key. -/
def subscriptionItemFingerprint (hash : String → String) (item : SubscriptionItem) : String :=
  hash (subscriptionItemStableKey item)

/-- Embeds `encodeSubscriptionSelectionToken`: `fp:<fingerprint>|i:<index>`. -/
def encodeSubscriptionSelectionToken (hash : String → String) (item : SubscriptionItem)
    (index : Nat) : String :=
  "fp:" ++ subscriptionItemFingerprint hash item ++ "|i:" ++ natToDecimal index

/-- The hint-index scan of `parseSelectionToken`: the first part of the
form `i:<Atoi-parsable>` (parts without the `i:` head or with an
unparsable number are skipped). -/
def selectionHintIndex : List (List Char) → Option Int
  | [] => none
  | p :: ps =>
    if p.take 2 = ['i', ':'] then
      match goAtoi (p.drop 2) with
      | some v => some v
      | none => selectionHintIndex ps
    else selectionHintIndex ps

/-- Embeds `parseSelectionToken`: require the `fp:` head, split the payload on
`|`, take the first part as the fingerprint (must be non-empty) and scan
the remaining parts for a hint index. -/
def parseSelectionToken (token : String) : Option (String × Option Int) :=
  if token.data.take 3 = ['f', 'p', ':'] then
    match splitOnChar '|' (token.data.drop 3) with
    | [] => none
    | fp :: rest => if fp = [] then none else some (String.mk fp, selectionHintIndex rest)
  else none

/-- Embeds `findSubscriptionItemIndexByToken`: try the hint index (accepted
only when in range and its fingerprint matches), else linear scan for
the first fingerprint match. -/
def findSubscriptionItemIndexByToken (hash : String → String)
    (items : List SubscriptionItem) (token : String) : Option Nat :=
  match parseSelectionToken token with
  | none => none
  | some (fp, hintIdx) =>
    let fromHint : Option Nat :=
      match hintIdx with
      | none => none
      | some idx =>
        if 0 ≤ idx ∧ idx.toNat < items.length then
          if subscriptionItemFingerprint hash (items.getD idx.toNat default) = fp then
            some idx.toNat
          else none
        else none
    match fromHint with
    | some i => some i
    | none => items.findIdx? (fun it => subscriptionItemFingerprint hash it == fp)

/-! ## Consume and adjust (model/subscription_quota.go) -/

/-- Debit both windows of an item by `amount`. -/
def debitSubscriptionItem (item : SubscriptionItem) (amount : Int) : SubscriptionItem :=
  { item with
    Limit5H := { item.Limit5H with Available := item.Limit5H.Available - amount }
    Limit7D := { item.Limit7D with Available := item.Limit7D.Available - amount } }

/-- The loop of `consumeSubscriptionQuotaFromFirstUsableItem`, carrying
the current index for the token. -/
def consumeLoop (hash : String → String) (nowSec : Int) (amount : Int) :
    List SubscriptionItem → Nat → List SubscriptionItem × String × Bool
  | [], _ => ([], "", false)
  | item :: rest, i =>
    if isUsableSubscriptionItem item nowSec amount then
      let item' := if amount > 0 then debitSubscriptionItem item amount else item
      (item' :: rest, encodeSubscriptionSelectionToken hash item' i, true)
    else
      let r := consumeLoop hash nowSec amount rest (i + 1)
      (item :: r.1, r.2.1, r.2.2)

/-- Embeds `consumeSubscriptionQuotaFromFirstUsableItem`: reject negative
amounts, then first-fit scan. -/
def consumeSubscriptionQuotaFromFirstUsableItem (hash : String → String)
    (items : List SubscriptionItem) (nowSec : Int) (amount : Int) :
    List SubscriptionItem × String × Bool :=
  if amount < 0 then (items, "", false)
  else consumeLoop hash nowSec amount items 0

/-- Error outcomes of `AdjustUserSubscriptionQuotaBySelectionToken`. -/
inductive SubscriptionAdjustError where
  | emptyToken
  | itemNotFound
  | exhausted
  deriving Repr, DecidableEq

/-- The pure core of `AdjustUserSubscriptionQuotaBySelectionToken`: the
read-modify-write of the user's item document inside the row-locked
transaction.  On an error outcome the transaction aborts before the
write, so the returned document is the input unchanged. -/
def adjustUserSubscriptionQuotaCore (hash : String → String)
    (items : List SubscriptionItem) (selectionToken : String) (delta : Int) :
    List SubscriptionItem × Option SubscriptionAdjustError :=
  if selectionToken = "" then (items, some .emptyToken)
  else if delta = 0 then (items, none)
  else
    match findSubscriptionItemIndexByToken hash items selectionToken with
    | none => (items, some .itemNotFound)
    | some idx =>
      let item := items.getD idx default
      let new5h := item.Limit5H.Available - delta
      let new7d := item.Limit7D.Available - delta
      if delta > 0 ∧ (new5h < 0 ∨ new7d < 0) then (items, some .exhausted)
      else
        let new5h := if delta < 0 ∧ new5h > item.Limit5H.Total then item.Limit5H.Total else new5h
        let new7d := if delta < 0 ∧ new7d > item.Limit7D.Total then item.Limit7D.Total else new7d
        (items.set idx
          { item with
            Limit5H := { item.Limit5H with Available := new5h }
            Limit7D := { item.Limit7D with Available := new7d } }, none)

/-- Error outcomes of `PreConsumeUserSubscriptionQuota`. -/
inductive SubscriptionPreConsumeError where
  | invalidAmount
  | exhausted
  deriving Repr, DecidableEq

/-- The pure core of `PreConsumeUserSubscriptionQuota`: reject negative
amounts, reset-and-prune the loaded document, first-fit consume, return
the updated document and token or the exhaustion error. -/
def preConsumeUserSubscriptionQuotaCore (hash : String → String)
    (items : List SubscriptionItem) (nowSec : Int) (amount : Int) :
    Except SubscriptionPreConsumeError (List SubscriptionItem × String) :=
  if amount < 0 then .error .invalidAmount
  else
    let pruned := (resetAndPruneSubscriptionData items nowSec).1
    let r := consumeSubscriptionQuotaFromFirstUsableItem hash pruned nowSec amount
    if r.2.2 then .ok (r.1, r.2.1) else .error .exhausted

/-! ## Quota admission controller, wallet path (service/pre_consume_quota.go)

`PreConsumeQuota`'s wallet path reads the user's balance, applies the
trust-threshold optimisation, and then performs the token-counter debit
followed by the wallet debit.  The two debit helpers live outside the
verified sources, so they are modelled from the spec; the orchestration
is embedded from `PreConsumeQuota` itself. -/

/-- The two externally stored wallet-path counters. -/
structure WalletState where
  tokenQuota : Int
  userQuota : Int
  deriving Repr, DecidableEq

/-- Modelled from the spec: `PreConsumeTokenQuota` (not under the
verified sources) performs an atomic conditional debit of the
token-level quota counter at the external store; the `accepted` oracle
decides whether the store accepts the debit, and a rejected debit leaves
the counter unchanged. -/
def preConsumeTokenQuota (accepted : Bool) (st : WalletState) (amount : Int) :
    WalletState × Bool :=
  if accepted then ({ st with tokenQuota := st.tokenQuota - amount }, true) else (st, false)

/-- Modelled from the spec: `model.DecreaseUserQuota` (not under the
verified sources) performs an atomic conditional debit of the user's
wallet balance at the external store; a rejected debit leaves the
balance unchanged. -/
def decreaseUserQuota (accepted : Bool) (st : WalletState) (amount : Int) :
    WalletState × Bool :=
  if accepted then ({ st with userQuota := st.userQuota - amount }, true) else (st, false)

/-- Outcomes of the wallet path of `PreConsumeQuota`. -/
inductive WalletPreConsumeOutcome where
  | ok (finalPreConsumedQuota : Int)
  | insufficientUserQuota
  | preConsumeTokenQuotaFailed
  | updateDataFailed
  deriving Repr, DecidableEq

/-- The trust-threshold optimisation of `PreConsumeQuota`: the amount
actually reserved is `0` when the balance exceeds the trust threshold
and the token is unlimited or itself above the threshold. -/
def walletReservedAmount (trustQuota : Int) (tokenUnlimited : Bool) (ctxTokenQuota : Int)
    (userQuota : Int) (preConsumedQuota : Int) : Int :=
  if userQuota > trustQuota ∧ (tokenUnlimited ∨ ctxTokenQuota > trustQuota) then 0
  else preConsumedQuota

/-- The wallet path of `PreConsumeQuota`: balance checks, trust
threshold, then the token-counter debit followed by the wallet debit,
each aborting with an error on rejection. -/
def preConsumeQuotaWalletPath (trustQuota : Int) (tokenUnlimited : Bool) (ctxTokenQuota : Int)
    (tokenDebitAccepted userDebitAccepted : Bool) (st : WalletState)
    (preConsumedQuota : Int) : WalletState × WalletPreConsumeOutcome :=
  if st.userQuota ≤ 0 then (st, .insufficientUserQuota)
  else if st.userQuota - preConsumedQuota < 0 then (st, .insufficientUserQuota)
  else
    let amount := walletReservedAmount trustQuota tokenUnlimited ctxTokenQuota st.userQuota preConsumedQuota
    if amount > 0 then
      let r1 := preConsumeTokenQuota tokenDebitAccepted st amount
      if r1.2 = false then (r1.1, .preConsumeTokenQuotaFailed)
      else
        let r2 := decreaseUserQuota userDebitAccepted r1.1 amount
        if r2.2 = false then (r2.1, .updateDataFailed)
        else (r2.1, .ok amount)
    else (st, .ok amount)

/-! ## Channel selection with temporary skip (service/channel_select.go)

The weighted-random satisfier is an external collaborator; it is an
oracle mapping the current exclusion set to a result.  The disable
registry read is an oracle on channel ids. -/

/-- Result of one `model.GetRandomSatisfiedChannel` call. -/
inductive SatisfierResult where
  | filtered
  | otherError (msg : String)
  | noChannel
  | channel (id : Int)
  deriving Repr, DecidableEq

/-- Outcome of `selectChannelWithTemporarySkip`. -/
inductive SelectOutcome where
  | selected (id : Int)
  | noneAvailable
  | disabledSentinel
  | failure (msg : String)
  deriving Repr, DecidableEq

/-- Embeds `maxTemporaryDisableSelectionAttempts`. -/
def maxTemporaryDisableSelectionAttempts : Nat := 8

/-- The loop of `selectChannelWithTemporarySkip`.  `remaining` counts
down from the attempt budget (Go counts `attempts` up and compares with
the maximum after incrementing, so a disabled hit with one attempt left
returns the sentinel).  The second component is the number of satisfier
calls performed. -/
def selectLoop (satisfy : List Int → SatisfierResult) (disabled : Int → Bool)
    (remaining : Nat) (excluded : List Int) : SelectOutcome × Nat :=
  match satisfy excluded with
  | .filtered => (.disabledSentinel, 1)
  | .otherError m => (.failure m, 1)
  | .noChannel => (.noneAvailable, 1)
  | .channel id =>
    if disabled id then
      if h : remaining ≤ 1 then (.disabledSentinel, 1)
      else
        let r := selectLoop satisfy disabled (remaining - 1) (id :: excluded)
        (r.1, r.2 + 1)
    else (.selected id, 1)
termination_by remaining
decreasing_by omega

/-- Embeds `selectChannelWithTemporarySkip`: the loop entered with an empty
exclusion set and the full attempt budget. -/
def selectChannelWithTemporarySkip (satisfy : List Int → SatisfierResult)
    (disabled : Int → Bool) : SelectOutcome × Nat :=
  selectLoop satisfy disabled maxTemporaryDisableSelectionAttempts []

/-! ## Temporary disable registry (the in-memory channel exclusion map)

Time is modelled in nanoseconds (Go `time.Time` / `time.Duration`
arithmetic); the reason is modelled as its byte sequence because Go
truncates it by bytes. -/

/-- One registry entry. -/
structure DisabledEntry where
  expireAt : Int
  reason : List UInt8
  deriving Repr, DecidableEq

/-- The registry map. -/
def DisableRegistry : Type := Int → Option DisabledEntry

/-- Embeds `defaultTemporaryChannelDisableDuration = 5 * time.Minute` in
nanoseconds. -/
def defaultTemporaryChannelDisableDuration : Int := 5 * 60 * 1000000000

/-- Embeds `maxTemporaryDisableReasonLength = 256` bytes. -/
def maxTemporaryDisableReasonLength : Nat := 256

/-- Embeds `TemporarilyDisableChannel`: default the duration, truncate the
reason, store `expireAt = now + duration`; returns the new registry and
the expiry. -/
def temporarilyDisableChannel (reg : DisableRegistry) (nowT : Int) (channelID : Int)
    (duration : Int) (reason : List UInt8) : DisableRegistry × Int :=
  let d := if duration ≤ 0 then defaultTemporaryChannelDisableDuration else duration
  let r := if reason.length > maxTemporaryDisableReasonLength then
    reason.take maxTemporaryDisableReasonLength else reason
  let expireAt := nowT + d
  (fun i => if i = channelID then some ⟨expireAt, r⟩ else reg i, expireAt)

/-- Embeds `GetTemporaryDisabledChannelInfo`: a present entry whose expiry has
passed (`time.Now().After(expireAt)`, i.e. strictly later) is deleted
and reported absent; otherwise the entry is reported. -/
def getTemporaryDisabledChannelInfo (reg : DisableRegistry) (nowT : Int) (channelID : Int) :
    DisableRegistry × Option (Int × List UInt8) :=
  match reg channelID with
  | none => (reg, none)
  | some e =>
    if nowT > e.expireAt then
      (fun i => if i = channelID then none else reg i, none)
    else (reg, some (e.expireAt, e.reason))

/-- Embeds `IsChannelTemporarilyDisabled`. -/
def isChannelTemporarilyDisabled (reg : DisableRegistry) (nowT : Int) (channelID : Int) : Bool :=
  (getTemporaryDisabledChannelInfo reg nowT channelID).2.isSome

/-! ## Moderation gate (service/moderation.go) -/

/-- One unicode-aware Go `unicode.IsSpace` character class. -/
def isGoSpace (c : Char) : Bool :=
  c = ' ' ∨ c = '\t' ∨ c = '\n' ∨ c = '\x0b' ∨ c = '\x0c' ∨ c = '\r' ∨
    c.toNat = 0x85 ∨ c.toNat = 0xa0 ∨ c.toNat = 0x1680 ∨
    (0x2000 ≤ c.toNat ∧ c.toNat ≤ 0x200a) ∨ c.toNat = 0x2028 ∨ c.toNat = 0x2029 ∨
    c.toNat = 0x202f ∨ c.toNat = 0x205f ∨ c.toNat = 0x3000

/-- Go `strings.TrimSpace`. -/
def goTrimSpace (s : String) : String :=
  String.mk (((s.data.dropWhile isGoSpace).reverse.dropWhile isGoSpace).reverse)

/-- Embeds `IsModerationEnabledForGroup` (common): trim, reject empty,
membership in the configured group set (modelled as a list). -/
def isModerationEnabledForGroup (enabledGroups : List String) (group : String) : Bool :=
  let g := goTrimSpace group
  if g = "" then false else enabledGroups.contains g

/-- Modelled from the spec: the relay-mode constants
(`relayconstant.RelayModeUnknown`, `…ChatCompletions`, `…Completions`,
`…Responses` are not under the verified sources); only their
distinctness matters. -/
def relayModeUnknown : Int := 0

/-- Modelled from the spec: see `relayModeUnknown`. -/
def relayModeChatCompletions : Int := 1

/-- Modelled from the spec: see `relayModeUnknown`. -/
def relayModeCompletions : Int := 2

/-- Modelled from the spec: see `relayModeUnknown`. -/
def relayModeResponses : Int := 3

/-- Modelled from the spec: `types.RelayFormat` (not under the verified
sources); the gate only distinguishes the Claude format. -/
inductive RelayFormat where
  | openAI
  | claude
  | gemini
  deriving Repr, DecidableEq

/-- The identity fields of `moderationDetails` consulted by
`shouldRunModeration`. -/
structure ModerationDetailsCore where
  UserID : Int
  Group : String
  CombinedText : String
  deriving Repr, DecidableEq

/-- Embeds `shouldRunModeration`: exempt user id 1, require a
moderation-enabled group, non-blank combined text, and a chat-capable
relay mode (or unknown mode with the Claude format). -/
def shouldRunModeration (enabledGroups : List String) (details : Option ModerationDetailsCore)
    (relayMode : Int) (relayFormat : RelayFormat) : Bool :=
  match details with
  | none => false
  | some d =>
    if d.UserID = 1 then false
    else if ¬ isModerationEnabledForGroup enabledGroups d.Group then false
    else if goTrimSpace d.CombinedText = "" then false
    else if relayMode = relayModeChatCompletions ∨ relayMode = relayModeCompletions ∨
        relayMode = relayModeResponses then true
    else if relayMode = relayModeUnknown ∧ relayFormat = .claude then true
    else false

/-- One result entry of the Mistral moderation response. -/
structure MistralModerationResult where
  categories : List (String × Bool)
  deriving Repr, DecidableEq

/-- The Mistral moderation response body. -/
structure MistralModerationResponse where
  results : List MistralModerationResult
  deriving Repr, DecidableEq

/-- Embeds `extractTriggeredCategories`: the flagged category names of the
first result. -/
def extractTriggeredCategories (resp : Option MistralModerationResponse) : List String :=
  match resp with
  | none => []
  | some r =>
    match r.results with
    | [] => []
    | r0 :: _ =>
      if r0.categories = [] then []
      else (r0.categories.filter (fun p => p.2)).map (fun p => p.1)

/-- Result of `getModerationAPIKey`: the credential key, or the
channel record being absent (`gorm.ErrRecordNotFound`), or another
failure. -/
inductive ModerationKeyResult where
  | found (key : String)
  | recordNotFound
  | failed
  deriving Repr, DecidableEq

/-- Result of `callMistralModeration`. -/
inductive ModerationCallResult where
  | response (resp : MistralModerationResponse)
  | failed
  deriving Repr, DecidableEq

/-- Outcome of `EnforceChatModeration`, with the HTTP status it maps
to. -/
inductive ModerationOutcome where
  | allow
  | keyLoadError (status : Int)
  | callError (status : Int)
  | blocked (status : Int) (categories : List String)
  deriving Repr, DecidableEq

/-- The decision core of `EnforceChatModeration`: skip when the gate
does not apply; a key-load failure returns 503 (record not found) or
500; a provider-call failure returns 502; otherwise block with the
sorted triggered categories (400) or allow.  The single provider call
and the key lookup are oracle parameters. -/
def enforceChatModerationCore (shouldRun : Bool) (keyResult : ModerationKeyResult)
    (callResult : ModerationCallResult) : ModerationOutcome :=
  if ¬ shouldRun then .allow
  else
    match keyResult with
    | .recordNotFound => .keyLoadError 503
    | .failed => .keyLoadError 500
    | .found _ =>
      match callResult with
      | .failed => .callError 502
      | .response resp =>
        let blockedCategories := extractTriggeredCategories (some resp)
        if blockedCategories = [] then .allow
        else .blocked 400 (blockedCategories.mergeSort (fun a b => decide (a ≤ b)))

/-! ## Concrete instances used by witnesses and counterexamples -/

/-- The constant hash used to instantiate the hash parameter in
witnesses (standing in for the SHA-1 hex digest). -/
def witnessHash : String → String := fun _ => "h"

/-- The two-item scenario of C1: both items deployed and in window,
item 0 with 5h availability 1, item 1 with 5h availability 2. -/
def c1Item0 : SubscriptionItem :=
  { PlanName := "pro", PlanID := "p1", SubscriptionID := "s1",
    Limit5H := ⟨10, 1, 1700000100⟩, Limit7D := ⟨10, 5, 1700000100⟩,
    Duration := ⟨1699999990, 1700000010, false⟩, Owner := 7, Status := "deployed" }

/-- Second item of the C1 scenario. -/
def c1Item1 : SubscriptionItem :=
  { c1Item0 with SubscriptionID := "s2", Limit5H := ⟨10, 2, 1700000100⟩ }

/-- A deployed item whose 5h window has `reset_at = 0` (refutes the
multiple-of-the-interval clause of C2 at `now = 1`). -/
def c2Item : SubscriptionItem :=
  { PlanName := "pro", PlanID := "p1", SubscriptionID := "s1",
    Limit5H := ⟨10, 3, 0⟩, Limit7D := ⟨20, 4, 10⟩,
    Duration := ⟨1, 2, false⟩, Owner := 7, Status := "deployed" }

/-- A deployed item with a stale positive 5h `reset_at` and a fresh 7d
`reset_at` (C2 witness, at `now = 50000`). -/
def c2WItem : SubscriptionItem :=
  { PlanName := "pro", PlanID := "p1", SubscriptionID := "s1",
    Limit5H := ⟨10, 3, 999⟩, Limit7D := ⟨20, 4, 60000⟩,
    Duration := ⟨1, 2, false⟩, Owner := 7, Status := "deployed" }

/-- A deployed in-window item with both availabilities 3 of 10 (C3
witness, consuming 2 and refunding 2). -/
def c3Item : SubscriptionItem :=
  { PlanName := "pro", PlanID := "p1", SubscriptionID := "s1",
    Limit5H := ⟨10, 3, 1700000100⟩, Limit7D := ⟨10, 5, 1700000100⟩,
    Duration := ⟨1699999990, 1700000010, false⟩, Owner := 7, Status := "deployed" }

/-- A deployed in-window item whose availabilities 15 exceed the totals
10 (refutes the clipped-restore clause of C3 at `N = 0`). -/
def c3CItem : SubscriptionItem :=
  { PlanName := "pro", PlanID := "p1", SubscriptionID := "s1",
    Limit5H := ⟨10, 15, 1700000100⟩, Limit7D := ⟨10, 15, 1700000100⟩,
    Duration := ⟨1699999990, 1700000010, false⟩, Owner := 7, Status := "deployed" }

/-- Satisfier oracle that always proposes channel 5 (C6 witness). -/
def satisfyAlways5 : List Int → SatisfierResult := fun _ => .channel 5

/-- Disable-registry oracle reporting every channel disabled (C6
witness). -/
def disabledAll : Int → Bool := fun _ => true

/-- A registry holding one entry for channel 7 expiring at time 100
(C7 witness and counterexample). -/
def c7Reg : DisableRegistry := fun i => if i = 7 then some ⟨100, []⟩ else none

/-- Details of the exempt privileged user in a moderation-enabled group
(C9 witness). -/
def c9Details1 : ModerationDetailsCore := ⟨1, "subscription", "hello"⟩

/-- Details of an ordinary user with whitespace-only combined text (C9
witness). -/
def c9Details2 : ModerationDetailsCore := ⟨2, "subscription", " "⟩

/-- An item agreeing with `c3Item` on the fingerprint fields but with
different status and limits (C10 witness). -/
def c10AlteredItem : SubscriptionItem :=
  { c3Item with Status := "disabled", Limit5H := ⟨0, 0, 0⟩, Limit7D := ⟨1, 1, 1⟩ }

/-! ## Helper lemmas: first-fit consumption -/

theorem consumeLoop_of_no_usable (hash : String → String) (nowSec amount : Int)
    (items : List SubscriptionItem) :
    (∀ it ∈ items, isUsableSubscriptionItem it nowSec amount = false) →
    ∀ n, consumeLoop hash nowSec amount items n = (items, "", false) := by
  induction items with
  | nil => intro _ n; rfl
  | cons item rest ih =>
    intro h n
    have h0 := h item (by simp)
    have hr := ih (fun it hit => h it (by simp [hit])) (n + 1)
    simp [consumeLoop, h0, hr]

theorem consumeLoop_of_first_usable (hash : String → String) (nowSec amount : Int) :
    ∀ (items : List SubscriptionItem) (n k : Nat) (hk : k < items.length),
      (∀ j (hj : j < k), isUsableSubscriptionItem (items.get ⟨j, Nat.lt_trans hj hk⟩) nowSec amount = false) →
      isUsableSubscriptionItem (items.get ⟨k, hk⟩) nowSec amount = true →
      consumeLoop hash nowSec amount items n =
        (items.set k (if amount > 0 then debitSubscriptionItem (items.get ⟨k, hk⟩) amount
            else items.get ⟨k, hk⟩),
         encodeSubscriptionSelectionToken hash
           (if amount > 0 then debitSubscriptionItem (items.get ⟨k, hk⟩) amount
            else items.get ⟨k, hk⟩) (n + k),
         true) := by
  intro items
  induction items with
  | nil => intro n k hk; exact absurd hk (Nat.not_lt_zero k)
  | cons item rest ih =>
    intro n k hk hfirst husable
    match k with
    | 0 =>
      simp only [List.get] at husable ⊢
      simp [consumeLoop, husable]
    | k' + 1 =>
      have h0 : isUsableSubscriptionItem item nowSec amount = false :=
        hfirst 0 (Nat.succ_pos k')
      have hk' : k' < rest.length := Nat.lt_of_succ_lt_succ hk
      have hr := ih (n + 1) k' hk'
        (fun j hj => hfirst (j + 1) (Nat.succ_lt_succ hj))
        husable
      simp only [List.get] at hr husable ⊢
      simp [consumeLoop, h0, hr, List.set, Nat.add_assoc, Nat.add_comm 1 k']

theorem debitSubscriptionItem_zero (it : SubscriptionItem) : debitSubscriptionItem it 0 = it := by
  cases it with
  | mk a b c l5 l7 d o s => cases l5; cases l7; simp [debitSubscriptionItem]

/-- C1: subscription `PreConsume` scans the items in stored order and,
for `amount ≥ 0`, debits both rolling windows of exactly the first
eligible item (per `isUsableSubscriptionItem`) by `amount`, leaving
every other item and every other field of the chosen item unchanged and
returning the encoded selection token; if no item is eligible the
consume step fails and `PreConsume` returns the exhaustion error. -/
theorem c1_subscription_preconsume_first_fit (hash : String → String)
    (items : List SubscriptionItem) (nowSec amount : Int) (h0 : 0 ≤ amount) :
    ((∀ it ∈ items, isUsableSubscriptionItem it nowSec amount = false) →
      consumeSubscriptionQuotaFromFirstUsableItem hash items nowSec amount = (items, "", false)) ∧
    ((consumeSubscriptionQuotaFromFirstUsableItem hash
        (resetAndPruneSubscriptionData items nowSec).1 nowSec amount).2.2 = false →
      preConsumeUserSubscriptionQuotaCore hash items nowSec amount =
        .error .exhausted) ∧
    (∀ k (hk : k < items.length),
      (∀ j (hj : j < k), isUsableSubscriptionItem (items.get ⟨j, Nat.lt_trans hj hk⟩) nowSec amount = false) →
      isUsableSubscriptionItem (items.get ⟨k, hk⟩) nowSec amount = true →
      consumeSubscriptionQuotaFromFirstUsableItem hash items nowSec amount =
        (items.set k (debitSubscriptionItem (items.get ⟨k, hk⟩) amount),
         encodeSubscriptionSelectionToken hash (debitSubscriptionItem (items.get ⟨k, hk⟩) amount) k,
         true) ∧
      (∀ j, j ≠ k →
        (items.set k (debitSubscriptionItem (items.get ⟨k, hk⟩) amount))[j]? = items[j]?) ∧
      ((debitSubscriptionItem (items.get ⟨k, hk⟩) amount).PlanName = (items.get ⟨k, hk⟩).PlanName ∧
       (debitSubscriptionItem (items.get ⟨k, hk⟩) amount).PlanID = (items.get ⟨k, hk⟩).PlanID ∧
       (debitSubscriptionItem (items.get ⟨k, hk⟩) amount).SubscriptionID = (items.get ⟨k, hk⟩).SubscriptionID ∧
       (debitSubscriptionItem (items.get ⟨k, hk⟩) amount).Owner = (items.get ⟨k, hk⟩).Owner ∧
       (debitSubscriptionItem (items.get ⟨k, hk⟩) amount).Status = (items.get ⟨k, hk⟩).Status ∧
       (debitSubscriptionItem (items.get ⟨k, hk⟩) amount).Duration = (items.get ⟨k, hk⟩).Duration ∧
       (debitSubscriptionItem (items.get ⟨k, hk⟩) amount).Limit5H.Total = (items.get ⟨k, hk⟩).Limit5H.Total ∧
       (debitSubscriptionItem (items.get ⟨k, hk⟩) amount).Limit5H.ResetAt = (items.get ⟨k, hk⟩).Limit5H.ResetAt ∧
       (debitSubscriptionItem (items.get ⟨k, hk⟩) amount).Limit5H.Available =
         (items.get ⟨k, hk⟩).Limit5H.Available - amount ∧
       (debitSubscriptionItem (items.get ⟨k, hk⟩) amount).Limit7D.Total = (items.get ⟨k, hk⟩).Limit7D.Total ∧
       (debitSubscriptionItem (items.get ⟨k, hk⟩) amount).Limit7D.ResetAt = (items.get ⟨k, hk⟩).Limit7D.ResetAt ∧
       (debitSubscriptionItem (items.get ⟨k, hk⟩) amount).Limit7D.Available =
         (items.get ⟨k, hk⟩).Limit7D.Available - amount)) := by
  refine ⟨?_, ?_, ?_⟩
  · intro h
    unfold consumeSubscriptionQuotaFromFirstUsableItem
    rw [if_neg (not_lt.2 h0)]
    exact consumeLoop_of_no_usable hash nowSec amount items h 0
  · intro h
    simp only [preConsumeUserSubscriptionQuotaCore, if_neg (not_lt.2 h0), h]
    simp
  · intro k hk hfirst husable
    refine ⟨?_, ?_, ?_⟩
    · unfold consumeSubscriptionQuotaFromFirstUsableItem
      rw [if_neg (not_lt.2 h0)]
      rw [consumeLoop_of_first_usable hash nowSec amount items 0 k hk hfirst husable]
      rcases lt_or_eq_of_le h0 with ha | ha
      · simp [ha, Nat.zero_add]
      · simp [← ha, debitSubscriptionItem_zero]
    · intro j hj
      rw [List.getElem?_set, if_neg (fun h => hj h.symm)]
    · exact ⟨rfl, rfl, rfl, rfl, rfl, rfl, rfl, rfl, rfl, rfl, rfl, rfl⟩

/-- Witness for C1: at the claim's concrete two-item scenario,
consuming amount 1 debits only item 0 and leaves item 1 untouched. -/
theorem c1_subscription_preconsume_first_fit_witness :
    consumeSubscriptionQuotaFromFirstUsableItem witnessHash [c1Item0, c1Item1] 1700000000 1 =
      ([c1Item0, c1Item1].set 0 (debitSubscriptionItem c1Item0 1),
       encodeSubscriptionSelectionToken witnessHash (debitSubscriptionItem c1Item0 1) 0,
       true) ∧
    ([c1Item0, c1Item1].set 0 (debitSubscriptionItem c1Item0 1))[1]? = some c1Item1 := by
  have h := (c1_subscription_preconsume_first_fit witnessHash [c1Item0, c1Item1] 1700000000 1
    (by decide)).2.2 0 (by decide)
    (fun j hj => absurd hj (Nat.not_lt_zero j)) (by decide)
  exact ⟨h.1, h.2.1 1 (by decide)⟩

/-! ## Helper lemmas: window resets -/

theorem advanceResetAt_of_pos (resetAt nowSec intervalSec : Int)
    (hI : 0 < intervalSec) (hR : 0 < resetAt)
    (hnow : resetAt < nowInSameUnit resetAt nowSec) :
    ∃ k : Int, 1 ≤ k ∧
      advanceResetAt resetAt nowSec intervalSec =
        resetAt + k * (if resetAt > 1000000000000 then intervalSec * 1000 else intervalSec) ∧
      nowInSameUnit resetAt nowSec < advanceResetAt resetAt nowSec intervalSec := by
  have hIpos : 0 < (if resetAt > 1000000000000 then intervalSec * 1000 else intervalSec) := by
    split
    · exact mul_pos hI (by norm_num)
    · exact hI
  have h1 : advanceResetAt resetAt nowSec intervalSec =
      resetAt + ((nowInSameUnit resetAt nowSec - resetAt).tdiv
        (if resetAt > 1000000000000 then intervalSec * 1000 else intervalSec) + 1) *
        (if resetAt > 1000000000000 then intervalSec * 1000 else intervalSec) := by
    simp only [advanceResetAt]
    rw [if_neg (not_le.2 hI), if_neg (not_le.2 hR), if_neg (not_le.2 hnow)]
  set I := (if resetAt > 1000000000000 then intervalSec * 1000 else intervalSec) with hIdef
  set a := nowInSameUnit resetAt nowSec - resetAt with hadef
  have ha : 0 ≤ a := by omega
  have hq : a.tdiv I = a / I := Int.tdiv_eq_ediv ha (le_of_lt hIpos)
  have hq0 : 0 ≤ a / I := Int.ediv_nonneg ha (le_of_lt hIpos)
  refine ⟨a.tdiv I + 1, by omega, h1, ?_⟩
  rw [h1, hq]
  have hded := Int.ediv_add_emod a I
  have hmod := Int.emod_lt_of_pos a hIpos
  have hgoal : a < (a / I + 1) * I := by nlinarith [hded, hmod]
  omega

theorem advanceResetAt_of_nonpos (resetAt nowSec intervalSec : Int)
    (hI : 0 < intervalSec) (hR : resetAt ≤ 0) :
    advanceResetAt resetAt nowSec intervalSec = nowInSameUnit resetAt nowSec + intervalSec := by
  have hms : ¬ (resetAt > 1000000000000) := by omega
  simp only [advanceResetAt]
  rw [if_neg (not_le.2 hI), if_neg hms, if_pos hR]

theorem resetSubscriptionWindow_not_passed (lim : SubscriptionLimit) (nowSec intervalSec : Int)
    (h : nowInSameUnit lim.ResetAt nowSec ≤ lim.ResetAt) :
    resetSubscriptionWindow lim nowSec intervalSec = (lim, false) := by
  simp only [resetSubscriptionWindow]
  rw [if_neg (not_lt.2 h)]

theorem resetSubscriptionWindow_passed (lim : SubscriptionLimit) (nowSec intervalSec : Int)
    (h : lim.ResetAt < nowInSameUnit lim.ResetAt nowSec) :
    (resetSubscriptionWindow lim nowSec intervalSec).1 =
      { lim with Available := lim.Total,
                 ResetAt := advanceResetAt lim.ResetAt nowSec intervalSec } := by
  simp only [resetSubscriptionWindow]
  rw [if_pos h]

theorem resetSubscriptionWindow_spec (lim : SubscriptionLimit) (nowSec intervalSec : Int)
    (hI : 0 < intervalSec) :
    (nowInSameUnit lim.ResetAt nowSec ≤ lim.ResetAt →
      (resetSubscriptionWindow lim nowSec intervalSec).1 = lim) ∧
    (lim.ResetAt < nowInSameUnit lim.ResetAt nowSec →
      (resetSubscriptionWindow lim nowSec intervalSec).1.Available = lim.Total ∧
      (resetSubscriptionWindow lim nowSec intervalSec).1.Total = lim.Total ∧
      nowInSameUnit lim.ResetAt nowSec < (resetSubscriptionWindow lim nowSec intervalSec).1.ResetAt ∧
      (0 < lim.ResetAt → ∃ k : Int, 1 ≤ k ∧
        (resetSubscriptionWindow lim nowSec intervalSec).1.ResetAt =
          lim.ResetAt + k * (if lim.ResetAt > 1000000000000 then intervalSec * 1000 else intervalSec)) ∧
      (lim.ResetAt ≤ 0 →
        (resetSubscriptionWindow lim nowSec intervalSec).1.ResetAt =
          nowInSameUnit lim.ResetAt nowSec + intervalSec)) := by
  constructor
  · intro h
    rw [resetSubscriptionWindow_not_passed lim nowSec intervalSec h]
  · intro h
    rw [resetSubscriptionWindow_passed lim nowSec intervalSec h]
    refine ⟨rfl, rfl, ?_, ?_, ?_⟩
    · show nowInSameUnit lim.ResetAt nowSec < advanceResetAt lim.ResetAt nowSec intervalSec
      rcases le_or_lt lim.ResetAt 0 with hR | hR
      · rw [advanceResetAt_of_nonpos _ _ _ hI hR]; omega
      · exact (advanceResetAt_of_pos _ _ _ hI hR h).choose_spec.2.2
    · intro hR
      obtain ⟨k, hk, heq, _⟩ := advanceResetAt_of_pos _ _ _ hI hR h
      exact ⟨k, hk, heq⟩
    · intro hR
      exact advanceResetAt_of_nonpos _ _ _ hI hR

theorem resetAndPruneLoop_fst (nowSec : Int) (items : List SubscriptionItem) :
    (resetAndPruneLoop items nowSec).1 =
      (items.filter (fun it => decide (it.Status = "deployed"))).map
        (fun it => (resetSubscriptionItemWindows it nowSec).1) := by
  induction items with
  | nil => rfl
  | cons item rest ih =>
    by_cases h : item.Status = "deployed"
    · simp [resetAndPruneLoop, h, ih]
    · simp [resetAndPruneLoop, h, ih]

theorem resetAndPruneSubscriptionData_fst (items : List SubscriptionItem) (nowSec : Int) :
    (resetAndPruneSubscriptionData items nowSec).1 =
      (items.filter (fun it => decide (it.Status = "deployed"))).map
        (fun it => (resetSubscriptionItemWindows it nowSec).1) := by
  by_cases h : items = []
  · subst h; rfl
  · simp only [resetAndPruneSubscriptionData]
    rw [if_neg h]
    exact resetAndPruneLoop_fst nowSec items

/-- C2 (amended): `ResetAndPrune` drops every non-deployed item and
resets each passed window of the survivors independently: afterwards
`available = total` and the new `resetAt` is strictly greater than the
converted `now`; when the old `resetAt` was positive the new `resetAt`
is the old one plus a whole positive multiple of the window interval
(18000 s resp. 604800 s, in the `resetAt`'s unit), and when the old
`resetAt` was zero or negative the new `resetAt` is the converted `now`
plus the interval.  Windows whose `resetAt` has not passed are
unchanged.  In particular `resetAt = 1000`, interval 18000, `now =
50000` yields 55000. -/
theorem c2_reset_and_prune_resets_passed_windows (items : List SubscriptionItem) (nowSec : Int) :
    (resetAndPruneSubscriptionData items nowSec).1 =
      (items.filter (fun it => decide (it.Status = "deployed"))).map
        (fun it => (resetSubscriptionItemWindows it nowSec).1) ∧
    (∀ it : SubscriptionItem,
      ((resetSubscriptionItemWindows it nowSec).1.PlanName = it.PlanName ∧
       (resetSubscriptionItemWindows it nowSec).1.PlanID = it.PlanID ∧
       (resetSubscriptionItemWindows it nowSec).1.SubscriptionID = it.SubscriptionID ∧
       (resetSubscriptionItemWindows it nowSec).1.Owner = it.Owner ∧
       (resetSubscriptionItemWindows it nowSec).1.Status = it.Status ∧
       (resetSubscriptionItemWindows it nowSec).1.Duration = it.Duration) ∧
      ((resetSubscriptionItemWindows it nowSec).1.Limit5H =
        (resetSubscriptionWindow it.Limit5H nowSec 18000).1 ∧
       (resetSubscriptionItemWindows it nowSec).1.Limit7D =
        (resetSubscriptionWindow it.Limit7D nowSec 604800).1)) ∧
    (∀ lim : SubscriptionLimit, ∀ intervalSec : Int, 0 < intervalSec →
      (nowInSameUnit lim.ResetAt nowSec ≤ lim.ResetAt →
        (resetSubscriptionWindow lim nowSec intervalSec).1 = lim) ∧
      (lim.ResetAt < nowInSameUnit lim.ResetAt nowSec →
        (resetSubscriptionWindow lim nowSec intervalSec).1.Available = lim.Total ∧
        (resetSubscriptionWindow lim nowSec intervalSec).1.Total = lim.Total ∧
        nowInSameUnit lim.ResetAt nowSec <
          (resetSubscriptionWindow lim nowSec intervalSec).1.ResetAt ∧
        (0 < lim.ResetAt → ∃ k : Int, 1 ≤ k ∧
          (resetSubscriptionWindow lim nowSec intervalSec).1.ResetAt =
            lim.ResetAt +
              k * (if lim.ResetAt > 1000000000000 then intervalSec * 1000 else intervalSec)) ∧
        (lim.ResetAt ≤ 0 →
          (resetSubscriptionWindow lim nowSec intervalSec).1.ResetAt =
            nowInSameUnit lim.ResetAt nowSec + intervalSec))) ∧
    advanceResetAt 1000 50000 18000 = 55000 := by
  refine ⟨resetAndPruneSubscriptionData_fst items nowSec, ?_, ?_, by decide⟩
  · intro it
    exact ⟨⟨rfl, rfl, rfl, rfl, rfl, rfl⟩, rfl, rfl⟩
  · intro lim intervalSec hI
    exact resetSubscriptionWindow_spec lim nowSec intervalSec hI

/-- Witness for C2: at `now = 50000` the item with stale 5h
`reset_at = 999` is reset to `available = 10`, `reset_at = 54999 = 999 +
3·18000`, and its fresh 7d window is unchanged. -/
theorem c2_reset_and_prune_resets_passed_windows_witness :
    (resetAndPruneSubscriptionData [c2WItem] 50000).1 =
      [{ c2WItem with Limit5H := ⟨10, 10, 54999⟩ }] ∧
    advanceResetAt 1000 50000 18000 = 55000 := by
  have h := c2_reset_and_prune_resets_passed_windows [c2WItem] 50000
  refine ⟨h.1.trans (by decide), h.2.2.2⟩

/-- Counterexample to C2 as stated: for a deployed item with 5h
`reset_at = 0` at `now = 1` the window has passed (`0 < 1`), and the new
`reset_at` is `18001`, which is not the old `reset_at` plus a positive
multiple of 18000. -/
theorem c2_counterexample_resetAt_zero :
    (((resetAndPruneSubscriptionData [c2Item] 1).1.getD 0 default).Limit5H.ResetAt = 18001) ∧
    (0 : Int) < nowInSameUnit 0 1 ∧
    ¬ ∃ k : Int, 1 ≤ k ∧ (18001 : Int) = 0 + k * 18000 := by
  refine ⟨by decide, by decide, ?_⟩
  rintro ⟨k, hk1, hk2⟩
  omega

/-! ## Helper lemmas: decimal rendering, splitting and token parsing -/

theorem natDigitsAux_eq_digits : ∀ fuel n, n ≤ fuel → natDigitsAux fuel n = Nat.digits 10 n := by
  intro fuel
  induction fuel with
  | zero =>
    intro n hn
    have : n = 0 := Nat.le_zero.1 hn
    subst this
    simp [natDigitsAux]
  | succ fuel ih =>
    intro n hn
    unfold natDigitsAux
    by_cases h : n = 0
    · subst h; simp
    · rw [if_neg h]
      rw [Nat.digits_def' (by norm_num : (1 : Nat) < 10) (Nat.pos_of_ne_zero h)]
      have hdiv := Nat.div_lt_self (Nat.pos_of_ne_zero h) (by norm_num : (1 : Nat) < 10)
      rw [ih (n / 10) (by omega)]

theorem natDigitsLE_eq_digits (n : Nat) : natDigitsLE n = Nat.digits 10 n :=
  natDigitsAux_eq_digits n n le_rfl

theorem digitChar_facts (d : Nat) (h : d < 10) :
    (Nat.digitChar d).isDigit = true ∧ Nat.digitChar d ≠ '|' ∧ Nat.digitChar d ≠ '-' ∧
      Nat.digitChar d ≠ '+' ∧ charToDigit (Nat.digitChar d) = d := by
  interval_cases d <;> decide

theorem natToDecimalChars_facts (n : Nat) :
    natToDecimalChars n ≠ [] ∧
      ∀ c ∈ natToDecimalChars n, c.isDigit = true ∧ c ≠ '|' ∧ c ≠ '-' ∧ c ≠ '+' := by
  unfold natToDecimalChars
  by_cases h : n = 0
  · subst h; exact ⟨by decide, by decide⟩
  · rw [if_neg h, natDigitsLE_eq_digits]
    constructor
    · simp [Nat.digits_ne_nil_iff_ne_zero, h]
    · intro c hc
      simp only [List.mem_reverse, List.mem_map] at hc
      obtain ⟨d, hd, rfl⟩ := hc
      have hlt : d < 10 := Nat.digits_lt_base (by norm_num) hd
      have hf := digitChar_facts d hlt
      exact ⟨hf.1, hf.2.1, hf.2.2.1, hf.2.2.2.1⟩

theorem foldr_digitChar_eq_ofDigits :
    ∀ ds : List Nat, (∀ d ∈ ds, d < 10) →
      List.foldr (fun d acc => acc * 10 + charToDigit (Nat.digitChar d)) 0 ds =
        Nat.ofDigits 10 ds := by
  intro ds
  induction ds with
  | nil => intro _; simp [Nat.ofDigits]
  | cons d rest ih =>
    intro h
    have hd : d < 10 := h d (by simp)
    have hc := (digitChar_facts d hd).2.2.2.2
    simp only [List.foldr_cons, Nat.ofDigits_cons, ih (fun x hx => h x (by simp [hx])), hc]
    ring

theorem parseDecimalDigits_natToDecimalChars (n : Nat) :
    parseDecimalDigits (natToDecimalChars n) = n := by
  unfold natToDecimalChars
  by_cases h : n = 0
  · subst h; decide
  · rw [if_neg h, natDigitsLE_eq_digits]
    unfold parseDecimalDigits
    rw [List.foldl_reverse, List.foldr_map]
    rw [foldr_digitChar_eq_ofDigits (Nat.digits 10 n)
      (fun d hd => Nat.digits_lt_base (by norm_num) hd)]
    exact Nat.ofDigits_digits 10 n

theorem goAtoi_natToDecimalChars (n : Nat) (h : (n : Int) ≤ 2 ^ 63 - 1) :
    goAtoi (natToDecimalChars n) = some (n : Int) := by
  obtain ⟨hne, hall⟩ := natToDecimalChars_facts n
  cases hcs : natToDecimalChars n with
  | nil => exact absurd hcs hne
  | cons c rest =>
    have hc := hall c (by rw [hcs]; simp)
    simp only [goAtoi]
    rw [if_neg hc.2.2.1, if_neg hc.2.2.2]
    unfold goAtoiDigits
    rw [if_neg (by simp)]
    have hdig : (c :: rest).all Char.isDigit = true := by
      rw [List.all_eq_true]
      intro x hx
      exact (hall x (by rw [hcs]; exact hx)).1
    rw [if_pos hdig]
    have hval : parseDecimalDigits (c :: rest) = n := by
      rw [← hcs]; exact parseDecimalDigits_natToDecimalChars n
    simp only [hval, Bool.false_eq_true, if_false]
    rw [if_neg (by push_neg; constructor <;> omega)]

theorem splitOnChar_ne_nil (sep : Char) : ∀ l : List Char, splitOnChar sep l ≠ [] := by
  intro l
  induction l with
  | nil => simp [splitOnChar]
  | cons c cs ih =>
    simp only [splitOnChar]
    cases h : splitOnChar sep cs with
    | nil => by_cases hc : c = sep <;> simp [hc]
    | cons a b => by_cases hc : c = sep <;> simp [hc]

theorem splitOnChar_not_mem (sep : Char) : ∀ l : List Char, sep ∉ l → splitOnChar sep l = [l] := by
  intro l
  induction l with
  | nil => intro _; rfl
  | cons c cs ih =>
    intro h
    have hc : ¬ (c = sep) := fun he => h (he ▸ List.mem_cons_self c cs)
    have hcs : sep ∉ cs := fun hm => h (List.mem_cons_of_mem c hm)
    simp only [splitOnChar]
    rw [ih hcs]
    simp [hc]

theorem splitOnChar_append (sep : Char) : ∀ l r : List Char, sep ∉ l →
    splitOnChar sep (l ++ sep :: r) = l :: splitOnChar sep r := by
  intro l
  induction l with
  | nil =>
    intro r _
    simp only [List.nil_append, splitOnChar]
    cases h : splitOnChar sep r with
    | nil => exact absurd h (splitOnChar_ne_nil sep r)
    | cons a b => simp
  | cons c cs ih =>
    intro r h
    have hc : ¬ (c = sep) := fun he => h (he ▸ List.mem_cons_self c cs)
    have hcs : sep ∉ cs := fun hm => h (List.mem_cons_of_mem c hm)
    simp only [List.cons_append, splitOnChar, List.append_eq]
    rw [ih r hcs]
    simp [hc]

theorem parseSelectionToken_encode (fp : String) (h1 : fp ≠ "") (h2 : '|' ∉ fp.data)
    (n : Nat) (hn : (n : Int) ≤ 2 ^ 63 - 1) :
    parseSelectionToken ("fp:" ++ fp ++ "|i:" ++ natToDecimal n) = some (fp, some (n : Int)) := by
  have hdata : ("fp:" ++ fp ++ "|i:" ++ natToDecimal n).data =
      ['f', 'p', ':'] ++ (fp.data ++ '|' :: ('i' :: ':' :: natToDecimalChars n)) := by
    simp [natToDecimal, String.data_append]
  have hmem : '|' ∉ ('i' :: ':' :: natToDecimalChars n) := by
    simp only [List.mem_cons, not_or]
    refine ⟨by decide, by decide, ?_⟩
    intro hm
    exact ((natToDecimalChars_facts n).2 _ hm).2.1 rfl
  have hfpdata : fp.data ≠ [] := by
    intro hd
    apply h1
    cases fp
    simp only at hd
    rw [hd]
  unfold parseSelectionToken
  rw [hdata]
  simp only [List.cons_append, List.nil_append, List.take_succ_cons, List.take_zero,
    List.drop_succ_cons, List.drop_zero, if_true]
  rw [splitOnChar_append '|' fp.data _ h2, splitOnChar_not_mem '|' _ hmem]
  simp only []
  rw [if_neg hfpdata]
  simp only [selectionHintIndex, List.take_succ_cons, List.take_zero,
    List.drop_succ_cons, List.drop_zero, if_true]
  rw [goAtoi_natToDecimalChars n hn]

theorem findSubscriptionItemIndexByToken_encode (hash : String → String)
    (items : List SubscriptionItem) (i : Nat) (hi : i < items.length) (it : SubscriptionItem)
    (htok : subscriptionItemFingerprint hash (items.getD i default) =
      subscriptionItemFingerprint hash it)
    (hfp1 : subscriptionItemFingerprint hash it ≠ "")
    (hfp2 : '|' ∉ (subscriptionItemFingerprint hash it).data)
    (hn : (i : Int) ≤ 2 ^ 63 - 1) :
    findSubscriptionItemIndexByToken hash items (encodeSubscriptionSelectionToken hash it i) =
      some i := by
  unfold findSubscriptionItemIndexByToken encodeSubscriptionSelectionToken
  rw [parseSelectionToken_encode (subscriptionItemFingerprint hash it) hfp1 hfp2 i hn]
  simp only []
  rw [if_pos (⟨Int.natCast_nonneg i, by simpa using hi⟩ :
    0 ≤ (i : Int) ∧ (i : Int).toNat < items.length)]
  rw [if_pos (by simpa using htok)]
  simp

theorem encodeSubscriptionSelectionToken_ne_empty (hash : String → String)
    (it : SubscriptionItem) (i : Nat) :
    encodeSubscriptionSelectionToken hash it i ≠ "" := by
  intro h
  have hd := congrArg String.data h
  simp [encodeSubscriptionSelectionToken, String.data_append] at hd

/-- C3 (amended): after subscription `PreConsume` with amount `N ≥ 1`
selects the first eligible item and returns its selection token,
`AdjustBySelectionToken` with `delta = -N` restores both of that item's
`available` values to their pre-consumption values clipped at `total`
(exact whenever the pre-consumption `available` was at most `total`).
The hash side conditions hold for the SHA-1 hex digests produced by the
code (non-empty, no `|`, and the index fits in an `int`). -/
theorem c3_selection_token_round_trip (hash : String → String)
    (items : List SubscriptionItem) (nowSec N : Int) (k : Nat) (hk : k < items.length)
    (hfirst : ∀ j (hj : j < k),
      isUsableSubscriptionItem (items.get ⟨j, Nat.lt_trans hj hk⟩) nowSec N = false)
    (husable : isUsableSubscriptionItem (items.get ⟨k, hk⟩) nowSec N = true)
    (hN : 1 ≤ N)
    (hfp1 : subscriptionItemFingerprint hash (items.get ⟨k, hk⟩) ≠ "")
    (hfp2 : '|' ∉ (subscriptionItemFingerprint hash (items.get ⟨k, hk⟩)).data)
    (hbound : (k : Int) ≤ 2 ^ 63 - 1) :
    (consumeSubscriptionQuotaFromFirstUsableItem hash items nowSec N).2.2 = true ∧
    adjustUserSubscriptionQuotaCore hash
        (consumeSubscriptionQuotaFromFirstUsableItem hash items nowSec N).1
        (consumeSubscriptionQuotaFromFirstUsableItem hash items nowSec N).2.1 (-N) =
      (items.set k
        { items.get ⟨k, hk⟩ with
          Limit5H := { (items.get ⟨k, hk⟩).Limit5H with
            Available :=
              if (items.get ⟨k, hk⟩).Limit5H.Available > (items.get ⟨k, hk⟩).Limit5H.Total
              then (items.get ⟨k, hk⟩).Limit5H.Total
              else (items.get ⟨k, hk⟩).Limit5H.Available }
          Limit7D := { (items.get ⟨k, hk⟩).Limit7D with
            Available :=
              if (items.get ⟨k, hk⟩).Limit7D.Available > (items.get ⟨k, hk⟩).Limit7D.Total
              then (items.get ⟨k, hk⟩).Limit7D.Total
              else (items.get ⟨k, hk⟩).Limit7D.Available } }, none) := by
  have hN0 : ¬ (N < 0) := by omega
  have hNpos : N > 0 := hN
  have hcons := consumeLoop_of_first_usable hash nowSec N items 0 k hk hfirst husable
  have hconsume : consumeSubscriptionQuotaFromFirstUsableItem hash items nowSec N =
      (items.set k (debitSubscriptionItem (items.get ⟨k, hk⟩) N),
       encodeSubscriptionSelectionToken hash (debitSubscriptionItem (items.get ⟨k, hk⟩) N) k,
       true) := by
    unfold consumeSubscriptionQuotaFromFirstUsableItem
    rw [if_neg hN0, hcons]
    simp [hNpos]
  refine ⟨by rw [hconsume], ?_⟩
  rw [hconsume]
  have hgetd : (items.set k (debitSubscriptionItem (items.get ⟨k, hk⟩) N)).getD k default =
      debitSubscriptionItem (items.get ⟨k, hk⟩) N := by
    simp [List.getD, List.getElem?_set, hk]
  have hfind : findSubscriptionItemIndexByToken hash
      (items.set k (debitSubscriptionItem (items.get ⟨k, hk⟩) N))
      (encodeSubscriptionSelectionToken hash (debitSubscriptionItem (items.get ⟨k, hk⟩) N) k) =
      some k := by
    apply findSubscriptionItemIndexByToken_encode hash _ k (by simpa using hk)
    · rw [hgetd]
    · exact hfp1
    · exact hfp2
    · exact hbound
  unfold adjustUserSubscriptionQuotaCore
  rw [if_neg (encodeSubscriptionSelectionToken_ne_empty hash _ k),
    if_neg (show ¬ (-N = 0) by omega), hfind]
  simp only [hgetd]
  rw [if_neg (fun hcon => absurd hcon.1 (show ¬ ((-N) > 0) by omega))]
  rw [List.set_set]
  have hneg : -N < 0 := by omega
  simp only [debitSubscriptionItem, sub_neg_eq_add, sub_add_cancel]
  simp [hneg]

/-- Witness for C3: consuming 2 from an item with availabilities 3 of
10 and refunding 2 through the returned token restores the document
exactly. -/
theorem c3_selection_token_round_trip_witness :
    adjustUserSubscriptionQuotaCore witnessHash
        (consumeSubscriptionQuotaFromFirstUsableItem witnessHash [c3Item] 1700000000 2).1
        (consumeSubscriptionQuotaFromFirstUsableItem witnessHash [c3Item] 1700000000 2).2.1 (-2) =
      ([c3Item], none) := by
  have h := c3_selection_token_round_trip witnessHash [c3Item] 1700000000 2 0 (by decide)
    (fun j hj => absurd hj (Nat.not_lt_zero j)) (by decide) (by decide) (by decide) (by decide)
    (by norm_num)
  rw [h.2]
  decide

/-- Counterexample to C3 as stated: with `N = 0` and an eligible item
whose `available = 15` exceeds `total = 10`, the refund through the
token is an unconditional no-op, so `available` stays 15 instead of the
claimed clip at `total = 10`. -/
theorem c3_counterexample_zero_amount :
    (consumeSubscriptionQuotaFromFirstUsableItem witnessHash [c3CItem] 1700000000 0).2.2 = true ∧
    adjustUserSubscriptionQuotaCore witnessHash
        (consumeSubscriptionQuotaFromFirstUsableItem witnessHash [c3CItem] 1700000000 0).1
        (consumeSubscriptionQuotaFromFirstUsableItem witnessHash [c3CItem] 1700000000 0).2.1
        (-0) =
      ([c3CItem], none) ∧
    c3CItem.Limit5H.Available = 15 ∧ c3CItem.Limit5H.Total = 10 ∧ ¬ ((15 : Int) = 10) := by
  decide

/-- C4: `AdjustBySelectionToken` resolves the token by trying the hint
index first, accepting it only when in range with a matching
fingerprint, otherwise falling back to a linear scan for the first
fingerprint match; an unresolvable token yields the item-not-found
error, a positive delta that would drive either window below zero
yields the exhaustion error, and both error cases leave the item list
unchanged. -/
theorem c4_adjust_token_resolution_and_errors (hash : String → String)
    (items : List SubscriptionItem) (token : String) (delta : Int)
    (hdelta : delta ≠ 0) (htoken : token ≠ "") :
    (findSubscriptionItemIndexByToken hash items token = none →
      adjustUserSubscriptionQuotaCore hash items token delta = (items, some .itemNotFound)) ∧
    (∀ i, findSubscriptionItemIndexByToken hash items token = some i → 0 < delta →
      ((items.getD i default).Limit5H.Available - delta < 0 ∨
       (items.getD i default).Limit7D.Available - delta < 0) →
      adjustUserSubscriptionQuotaCore hash items token delta = (items, some .exhausted)) ∧
    (parseSelectionToken token = none →
      findSubscriptionItemIndexByToken hash items token = none) ∧
    (∀ fp hint, parseSelectionToken token = some (fp, some hint) →
      0 ≤ hint → hint.toNat < items.length →
      subscriptionItemFingerprint hash (items.getD hint.toNat default) = fp →
      findSubscriptionItemIndexByToken hash items token = some hint.toNat) ∧
    (∀ fp, parseSelectionToken token = some (fp, none) →
      findSubscriptionItemIndexByToken hash items token =
        items.findIdx? (fun it => subscriptionItemFingerprint hash it == fp)) ∧
    (∀ fp hint, parseSelectionToken token = some (fp, some hint) →
      ¬ (0 ≤ hint ∧ hint.toNat < items.length ∧
          subscriptionItemFingerprint hash (items.getD hint.toNat default) = fp) →
      findSubscriptionItemIndexByToken hash items token =
        items.findIdx? (fun it => subscriptionItemFingerprint hash it == fp)) := by
  refine ⟨?_, ?_, ?_, ?_, ?_, ?_⟩
  · intro h
    unfold adjustUserSubscriptionQuotaCore
    rw [if_neg htoken, if_neg hdelta, h]
  · intro i hfind hpos hbelow
    unfold adjustUserSubscriptionQuotaCore
    rw [if_neg htoken, if_neg hdelta, hfind]
    simp only []
    rw [if_pos ⟨hpos, hbelow⟩]
  · intro h
    unfold findSubscriptionItemIndexByToken
    rw [h]
  · intro fp hint hparse h0 hlen hfpeq
    unfold findSubscriptionItemIndexByToken
    rw [hparse]
    simp only []
    rw [if_pos ⟨h0, hlen⟩, if_pos hfpeq]
  · intro fp hparse
    unfold findSubscriptionItemIndexByToken
    rw [hparse]
  · intro fp hint hparse hno
    unfold findSubscriptionItemIndexByToken
    rw [hparse]
    simp only []
    by_cases hin : 0 ≤ hint ∧ hint.toNat < items.length
    · rw [if_pos hin]
      rw [if_neg (fun hfpeq => hno ⟨hin.1, hin.2, hfpeq⟩)]
    · rw [if_neg hin]

/-- Witness for C4: an unknown fingerprint yields the item-not-found
error, and an over-large extra consumption yields the exhaustion error,
both leaving the document unchanged. -/
theorem c4_adjust_token_resolution_and_errors_witness :
    adjustUserSubscriptionQuotaCore witnessHash [c3Item] "fp:zz|i:0" 1 =
      ([c3Item], some .itemNotFound) ∧
    adjustUserSubscriptionQuotaCore witnessHash [c3Item] "fp:h|i:0" 100 =
      ([c3Item], some .exhausted) := by
  constructor
  · exact (c4_adjust_token_resolution_and_errors witnessHash [c3Item] "fp:zz|i:0" 1
      (by decide) (by decide)).1 (by decide)
  · exact (c4_adjust_token_resolution_and_errors witnessHash [c3Item] "fp:h|i:0" 100
      (by decide) (by decide)).2.1 0 (by decide) (by decide) (by decide)

/-- C5 (amended): in the wallet path of `PreConsume`, when a reservation
is actually performed (reserved amount > 0), the token-counter debit
runs first: if it is rejected, an error is returned with neither counter
decremented; but if it succeeds and the wallet debit is then rejected,
the error is returned with the token counter still decremented — the
token-level debit is not rolled back, so a partial debit survives that
failure.  When both debits succeed, both counters are decremented by the
reserved amount. -/
theorem c5_wallet_preconsume_debit_order (trustQuota : Int) (tokenUnlimited : Bool)
    (ctxTokenQuota : Int) (st : WalletState) (q : Int)
    (h1 : ¬ (st.userQuota ≤ 0)) (h2 : ¬ (st.userQuota - q < 0))
    (hamt : 0 < walletReservedAmount trustQuota tokenUnlimited ctxTokenQuota st.userQuota q) :
    (∀ userDebitAccepted,
      preConsumeQuotaWalletPath trustQuota tokenUnlimited ctxTokenQuota false userDebitAccepted st q =
        (st, .preConsumeTokenQuotaFailed)) ∧
    preConsumeQuotaWalletPath trustQuota tokenUnlimited ctxTokenQuota true false st q =
      ({ st with tokenQuota := st.tokenQuota -
          walletReservedAmount trustQuota tokenUnlimited ctxTokenQuota st.userQuota q },
        .updateDataFailed) ∧
    preConsumeQuotaWalletPath trustQuota tokenUnlimited ctxTokenQuota true true st q =
      (⟨st.tokenQuota - walletReservedAmount trustQuota tokenUnlimited ctxTokenQuota st.userQuota q,
        st.userQuota - walletReservedAmount trustQuota tokenUnlimited ctxTokenQuota st.userQuota q⟩,
        .ok (walletReservedAmount trustQuota tokenUnlimited ctxTokenQuota st.userQuota q)) := by
  refine ⟨?_, ?_, ?_⟩
  · intro userDebitAccepted
    simp [preConsumeQuotaWalletPath, h1, h2, hamt, preConsumeTokenQuota]
  · simp [preConsumeQuotaWalletPath, h1, h2, hamt, preConsumeTokenQuota, decreaseUserQuota]
  · simp [preConsumeQuotaWalletPath, h1, h2, hamt, preConsumeTokenQuota, decreaseUserQuota]

/-- Witness for C5: trust threshold 100, balance 50, token counter 50,
reservation 10. -/
theorem c5_wallet_preconsume_debit_order_witness :
    preConsumeQuotaWalletPath 100 false 0 false true ⟨50, 50⟩ 10 =
      (⟨50, 50⟩, .preConsumeTokenQuotaFailed) ∧
    preConsumeQuotaWalletPath 100 false 0 true false ⟨50, 50⟩ 10 =
      (⟨40, 50⟩, .updateDataFailed) ∧
    preConsumeQuotaWalletPath 100 false 0 true true ⟨50, 50⟩ 10 = (⟨40, 40⟩, .ok 10) := by
  have h := c5_wallet_preconsume_debit_order 100 false 0 ⟨50, 50⟩ 10
    (by decide) (by decide) (by decide)
  exact ⟨h.1 true, h.2.1, h.2.2⟩

/-- Counterexample to C5 as stated: with the token debit accepted and
the wallet debit rejected, `PreConsume` returns an error but the token
counter has been decremented from 50 to 40 — a partial debit survives
the failure. -/
theorem c5_counterexample_token_debit_survives :
    preConsumeQuotaWalletPath 100 false 0 true false ⟨50, 50⟩ 10 =
      (⟨40, 50⟩, .updateDataFailed) ∧
    (40 : Int) ≠ 50 := by
  decide

/-! ## Helper lemmas: channel selection -/

theorem selectLoop_calls_le (satisfy : List Int → SatisfierResult) (disabled : Int → Bool) :
    ∀ remaining excluded, (selectLoop satisfy disabled remaining excluded).2 ≤ max 1 remaining := by
  intro remaining
  induction remaining using Nat.strong_induction_on with
  | _ remaining ih =>
    intro excluded
    rw [selectLoop]
    cases satisfy excluded with
    | filtered => simp only []; omega
    | otherError m => simp only []; omega
    | noChannel => simp only []; omega
    | channel id =>
      simp only []
      by_cases hd : disabled id
      · rw [if_pos hd]
        by_cases hr : remaining ≤ 1
        · rw [dif_pos hr]; omega
        · rw [dif_neg hr]
          have h := ih (remaining - 1) (by omega) (id :: excluded)
          simp only []
          omega
      · rw [if_neg hd]; simp only []; omega

theorem selectLoop_all_disabled (satisfy : List Int → SatisfierResult) (disabled : Int → Bool)
    (hall : ∀ excl, ∃ c, satisfy excl = .channel c ∧ disabled c = true) :
    ∀ remaining excluded,
      selectLoop satisfy disabled remaining excluded = (.disabledSentinel, max 1 remaining) := by
  intro remaining
  induction remaining using Nat.strong_induction_on with
  | _ remaining ih =>
    intro excluded
    obtain ⟨c, hc, hdc⟩ := hall excluded
    rw [selectLoop, hc]
    simp only []
    rw [if_pos hdc]
    by_cases hr : remaining ≤ 1
    · rw [dif_pos hr]
      congr 1
      omega
    · rw [dif_neg hr]
      rw [ih (remaining - 1) (by omega) (c :: excluded)]
      simp only []
      congr 1
      omega

/-- C6: selection-with-skip always terminates within 8 satisfier calls;
it returns the pool-exhausted sentinel immediately when the satisfier
reports that no channel survives filtering, `(nil, nil)` when the
satisfier returns no channel and no error, the channel itself on any
attempt that yields a non-disabled channel, and the sentinel after 8
attempts that all yield disabled channels. -/
theorem c6_select_with_skip_terminates (satisfy : List Int → SatisfierResult)
    (disabled : Int → Bool) :
    (selectChannelWithTemporarySkip satisfy disabled).2 ≤ 8 ∧
    (satisfy [] = .filtered →
      selectChannelWithTemporarySkip satisfy disabled = (.disabledSentinel, 1)) ∧
    (satisfy [] = .noChannel →
      selectChannelWithTemporarySkip satisfy disabled = (.noneAvailable, 1)) ∧
    (∀ c, satisfy [] = .channel c → disabled c = false →
      selectChannelWithTemporarySkip satisfy disabled = (.selected c, 1)) ∧
    (∀ remaining excluded c, satisfy excluded = .channel c → disabled c = false →
      selectLoop satisfy disabled remaining excluded = (.selected c, 1)) ∧
    ((∀ excl, ∃ c, satisfy excl = .channel c ∧ disabled c = true) →
      selectChannelWithTemporarySkip satisfy disabled = (.disabledSentinel, 8)) := by
  refine ⟨?_, ?_, ?_, ?_, ?_, ?_⟩
  · exact le_trans (selectLoop_calls_le satisfy disabled 8 []) (by norm_num)
  · intro h
    unfold selectChannelWithTemporarySkip maxTemporaryDisableSelectionAttempts selectLoop
    rw [h]
  · intro h
    unfold selectChannelWithTemporarySkip maxTemporaryDisableSelectionAttempts selectLoop
    rw [h]
  · intro c hc hd
    unfold selectChannelWithTemporarySkip maxTemporaryDisableSelectionAttempts selectLoop
    rw [hc]
    simp [hd]
  · intro remaining excluded c hc hd
    unfold selectLoop
    rw [hc]
    simp [hd]
  · intro hall
    have h := selectLoop_all_disabled satisfy disabled hall 8 []
    unfold selectChannelWithTemporarySkip maxTemporaryDisableSelectionAttempts
    rw [h]
    norm_num

/-- Witness for C6: a satisfier that always proposes channel 5 while the
registry reports every channel disabled exhausts exactly 8 attempts and
returns the sentinel. -/
theorem c6_select_with_skip_terminates_witness :
    selectChannelWithTemporarySkip satisfyAlways5 disabledAll = (.disabledSentinel, 8) ∧
    (selectChannelWithTemporarySkip satisfyAlways5 disabledAll).2 ≤ 8 := by
  have h := c6_select_with_skip_terminates satisfyAlways5 disabledAll
  exact ⟨h.2.2.2.2.2 (fun excl => ⟨5, rfl, rfl⟩), h.1⟩

/-- C7 (amended): the Disable Registry reports a channel disabled if
and only if a stored entry has `now ≤ expireAt` (Go's
`time.Now().After` deletes only strictly expired entries); a read that
finds a strictly expired entry deletes it and reports absent; and
`Disable` stores `expireAt = now + duration` (with `duration ≤ 0`
defaulting to 5 minutes) and the reason truncated to 256 bytes. -/
theorem c7_disable_registry_expiry_invariant (reg : DisableRegistry) (nowT ch : Int) :
    ((getTemporaryDisabledChannelInfo reg nowT ch).2.isSome = true ↔
      ∃ e, reg ch = some e ∧ nowT ≤ e.expireAt) ∧
    (∀ e, reg ch = some e → e.expireAt < nowT →
      (getTemporaryDisabledChannelInfo reg nowT ch).1 ch = none ∧
      (getTemporaryDisabledChannelInfo reg nowT ch).2 = none) ∧
    (∀ duration reason,
      (temporarilyDisableChannel reg nowT ch duration reason).1 ch =
        some ⟨nowT + (if duration ≤ 0 then defaultTemporaryChannelDisableDuration else duration),
          reason.take maxTemporaryDisableReasonLength⟩) ∧
    isChannelTemporarilyDisabled reg nowT ch =
      (getTemporaryDisabledChannelInfo reg nowT ch).2.isSome := by
  refine ⟨?_, ?_, ?_, rfl⟩
  · unfold getTemporaryDisabledChannelInfo
    cases hreg : reg ch with
    | none => simp
    | some e =>
      simp only []
      by_cases hexp : nowT > e.expireAt
      · rw [if_pos hexp]
        constructor
        · intro h; exact absurd h (by simp)
        · rintro ⟨e2, he2, hle⟩
          injection he2 with he2
          subst he2
          omega
      · rw [if_neg hexp]
        simp only [Option.isSome_some, true_iff]
        exact ⟨e, rfl, by omega⟩
  · intro e hreg hexp
    unfold getTemporaryDisabledChannelInfo
    rw [hreg]
    simp only []
    rw [if_pos (show nowT > e.expireAt from hexp)]
    exact ⟨by simp, rfl⟩
  · intro duration reason
    unfold temporarilyDisableChannel
    simp only [if_pos rfl]
    congr 1
    by_cases hlen : reason.length > maxTemporaryDisableReasonLength
    · rw [if_pos hlen]; simp
    · rw [if_neg hlen, List.take_of_length_le (by omega)]; simp

/-- Witness for C7: an entry for channel 7 expiring at 100 reports
disabled at `now = 50`, and disabling channel 3 with duration 0 stores
`now + 5 minutes`. -/
theorem c7_disable_registry_expiry_invariant_witness :
    (getTemporaryDisabledChannelInfo c7Reg 50 7).2.isSome = true ∧
    (temporarilyDisableChannel c7Reg 0 3 0 []).1 3 = some ⟨300000000000, []⟩ := by
  have h := c7_disable_registry_expiry_invariant c7Reg 50 7
  have h2 := c7_disable_registry_expiry_invariant c7Reg 0 3
  constructor
  · exact h.1.2 ⟨⟨100, []⟩, by decide, by decide⟩
  · rw [h2.2.2.1 0 []]
    decide

/-- Counterexample to C7 as stated: at `now = 100` exactly equal to the
stored `expireAt = 100`, the registry still reports channel 7 disabled,
although no stored entry satisfies `now < expireAt`. -/
theorem c7_counterexample_boundary :
    c7Reg 7 = some ⟨100, []⟩ ∧
    isChannelTemporarilyDisabled c7Reg 100 7 = true ∧
    ¬ ((100 : Int) < 100) := by
  refine ⟨by decide, by decide, by omega⟩

/-- C8 (amended): the moderation gate has a single provider; for a
request that passes the applicability gate, a credential-load failure is
returned to the caller as a prompt-blocked error (503 when the channel
record is missing, 500 otherwise) and a provider-call failure as a 502
error — the gate never falls back to a second provider.  A response with
no triggered category allows the request. -/
theorem c8_moderation_single_provider_failure_propagation :
    (∀ keyResult callResult, enforceChatModerationCore false keyResult callResult = .allow) ∧
    (∀ callResult, enforceChatModerationCore true .recordNotFound callResult =
      .keyLoadError 503) ∧
    (∀ callResult, enforceChatModerationCore true .failed callResult = .keyLoadError 500) ∧
    (∀ key, enforceChatModerationCore true (.found key) .failed = .callError 502) ∧
    (∀ key resp, extractTriggeredCategories (some resp) = [] →
      enforceChatModerationCore true (.found key) (.response resp) = .allow) ∧
    (∀ s : Int, ModerationOutcome.keyLoadError s ≠ .allow ∧
      ModerationOutcome.callError s ≠ .allow) := by
  refine ⟨fun _ _ => rfl, fun _ => rfl, fun _ => rfl, fun _ => rfl, ?_, ?_⟩
  · intro key resp h
    unfold enforceChatModerationCore
    simp [h]
  · intro s
    exact ⟨by simp, by simp⟩

/-- Witness for C8: a benign response with no flagged category is
allowed, and the failure conjuncts at concrete inputs. -/
theorem c8_moderation_single_provider_failure_propagation_witness :
    enforceChatModerationCore true (.found "k") (.response ⟨[⟨[("violence", false)]⟩]⟩) =
      .allow ∧
    enforceChatModerationCore true .recordNotFound .failed = .keyLoadError 503 := by
  have h := c8_moderation_single_provider_failure_propagation
  exact ⟨h.2.2.2.2.1 "k" ⟨[⟨[("violence", false)]⟩]⟩ (by decide), h.2.1 .failed⟩

/-- Counterexample to C8 as stated: when the primary provider's
credential channel is unconfigured, the gate returns the 503 key-load
failure to the caller — it does not fall back to a secondary provider,
even though a benign moderation verdict is available. -/
theorem c8_counterexample_no_fallback :
    enforceChatModerationCore true .recordNotFound
        (.response ⟨[⟨[("violence", false)]⟩]⟩) = .keyLoadError 503 ∧
    ModerationOutcome.keyLoadError 503 ≠ .allow := by
  exact ⟨rfl, by simp⟩

/-- C9: `shouldRunModeration` is false for the exempt privileged user id
1 even when the group is moderation-enabled, false whenever the combined
inspection text is empty or whitespace-only, and true only when
additionally the relay mode is chat completions, completions or
responses, or the mode is unset and the relay format is Claude. -/
theorem c9_should_run_moderation_gate (enabledGroups : List String)
    (d : ModerationDetailsCore) (relayMode : Int) (relayFormat : RelayFormat) :
    (d.UserID = 1 →
      shouldRunModeration enabledGroups (some d) relayMode relayFormat = false) ∧
    (goTrimSpace d.CombinedText = "" →
      shouldRunModeration enabledGroups (some d) relayMode relayFormat = false) ∧
    (shouldRunModeration enabledGroups (some d) relayMode relayFormat = true →
      relayMode = relayModeChatCompletions ∨ relayMode = relayModeCompletions ∨
      relayMode = relayModeResponses ∨
      (relayMode = relayModeUnknown ∧ relayFormat = .claude)) := by
  refine ⟨?_, ?_, ?_⟩
  · intro h
    unfold shouldRunModeration
    simp [h]
  · intro h
    unfold shouldRunModeration
    split_ifs <;> simp_all
  · unfold shouldRunModeration
    split_ifs with h1 h2 h3 h4 h5 <;> intro h <;> simp_all <;> tauto

/-- Witness for C9: the exempt user id 1 is skipped even in a
moderation-enabled group, and whitespace-only text is skipped. -/
theorem c9_should_run_moderation_gate_witness :
    isModerationEnabledForGroup ["subscription"] "subscription" = true ∧
    shouldRunModeration ["subscription"] (some c9Details1) relayModeChatCompletions .openAI =
      false ∧
    shouldRunModeration ["subscription"] (some c9Details2) relayModeChatCompletions .openAI =
      false := by
  refine ⟨by decide, ?_, ?_⟩
  · exact (c9_should_run_moderation_gate ["subscription"] c9Details1
      relayModeChatCompletions .openAI).1 (by decide)
  · exact (c9_should_run_moderation_gate ["subscription"] c9Details2
      relayModeChatCompletions .openAI).2.1 (by decide)

/-- C10: the selection fingerprint depends only on `plan_name`,
`plan_id`, `subscription_id`, `owner` and the duration bounds — changes
to the limits or status leave it unchanged, quota debits and window
resets preserve the stable key, and a token issued for an item still
resolves to the same index after the stored item is replaced by any item
agreeing on the fingerprint fields (under the hash side conditions that
hold for SHA-1 hex digests). -/
theorem c10_fingerprint_stability (hash : String → String) (item : SubscriptionItem)
    (lim5 lim7 : SubscriptionLimit) (status : String) (amount nowSec : Int)
    (items : List SubscriptionItem) :
    subscriptionItemFingerprint hash
        { item with Limit5H := lim5, Limit7D := lim7, Status := status } =
      subscriptionItemFingerprint hash item ∧
    subscriptionItemStableKey (debitSubscriptionItem item amount) =
      subscriptionItemStableKey item ∧
    subscriptionItemStableKey (resetSubscriptionItemWindows item nowSec).1 =
      subscriptionItemStableKey item ∧
    (∀ (i : Nat), i < items.length → ∀ (it item2 : SubscriptionItem),
      subscriptionItemStableKey it = subscriptionItemStableKey (items.getD i default) →
      subscriptionItemStableKey item2 = subscriptionItemStableKey (items.getD i default) →
      subscriptionItemFingerprint hash it ≠ "" →
      '|' ∉ (subscriptionItemFingerprint hash it).data →
      (i : Int) ≤ 2 ^ 63 - 1 →
      findSubscriptionItemIndexByToken hash (items.set i item2)
        (encodeSubscriptionSelectionToken hash it i) = some i) := by
  refine ⟨rfl, rfl, rfl, ?_⟩
  intro i hi it item2 hkey1 hkey2 hfp1 hfp2 hbound
  apply findSubscriptionItemIndexByToken_encode hash (items.set i item2) i (by simpa using hi) it
    _ hfp1 hfp2 hbound
  have hget : (items.set i item2).getD i default = item2 := by
    simp [List.getD, List.getElem?_set, hi]
  rw [hget]
  unfold subscriptionItemFingerprint
  rw [hkey1, hkey2]

/-- Witness for C10: the token issued for the debited `c3Item` still
resolves to index 0 after the stored item's limits and status are
completely replaced. -/
theorem c10_fingerprint_stability_witness :
    subscriptionItemStableKey c10AlteredItem = subscriptionItemStableKey c3Item ∧
    findSubscriptionItemIndexByToken witnessHash [c10AlteredItem]
        (encodeSubscriptionSelectionToken witnessHash (debitSubscriptionItem c3Item 2) 0) =
      some 0 := by
  refine ⟨by decide, ?_⟩
  have h := (c10_fingerprint_stability witnessHash c3Item ⟨0, 0, 0⟩ ⟨1, 1, 1⟩ "disabled" 2 0
    [c3Item]).2.2.2 0 (by decide) (debitSubscriptionItem c3Item 2) c10AlteredItem
    (by decide) (by decide) (by decide) (by decide) (by norm_num)
  simpa using h

end PrivHub
